import Mathlib

/-!
# Verification of DALI's default memory-resource registry
(`dali/core/mm/default_resources.cc`)

A shallow embedding of the registry of process-wide default memory
resources: lazy double-checked construction per memory kind (and per
device index for device memory), explicit overrides, pool trimming and
the teardown guard.  Allocator instances live in a heap (a list indexed
by instance id); a handle is the id of an instance.  Platform state
(device count, current device, environment variables, whether a
device-runtime call would fail) is an explicit `Env` record, so that the
registry operations become pure state transformers.
-/

namespace DaliMM

/-- The concrete allocator objects that `default_resources.cc` constructs
(`malloc_resource.h`, `async_pool.h`, `cuda_vm_resource.h`,
`composite_resource.h`), described by their construction shape:
* `malloc_memory_resource` — plain host allocator;
* `pinned_malloc_memory_resource` — plain pinned allocator;
* `cuda_malloc_memory_resource dev` — plain device allocator for device `dev`;
* `managed_malloc_memory_resource` — plain managed allocator;
* `async_pool_vm_resource` — `async_pool_resource<device, cuda_vm_resource>`,
  the self-contained growing mapped pool (no separate upstream);
* `async_pool_resource up` — `async_pool_resource` over a
  `pool_resource<_, coalescing_free_tree, _>` drawing from upstream `up`;
* `composite_resource main up` — `make_shared_composite_resource`, binding
  `main` to its upstream `up` so that `up` outlives `main`. -/
inductive Resource where
  | malloc_memory_resource : Resource
  | pinned_malloc_memory_resource : Resource
  | cuda_malloc_memory_resource (device_id : Nat) : Resource
  | managed_malloc_memory_resource : Resource
  | async_pool_vm_resource : Resource
  | async_pool_resource (upstream : Resource) : Resource
  | composite_resource (main upstream : Resource) : Resource
  deriving DecidableEq, Repr

/-- A constructed allocator instance: its construction shape plus the
number of bytes its pool stage currently caches (pool internals are
opaque to the registry; only `release_unused` touches them, setting the
cached amount to zero). -/
structure Inst where
  res : Resource
  cached : Nat
  deriving DecidableEq, Repr

/-- The state of `DefaultResources` (the registry singleton): the four
kind slots, the lazily created per-device table with its recorded size,
and the heap of allocator instances constructed so far.  A slot holds
the instance id of the allocator it references (`none` = empty
`shared_ptr`).  `device = none` models the not-yet-allocated
`unique_ptr` array. -/
structure State where
  heap : List Inst
  host : Option Nat
  pinned_async : Option Nat
  managed : Option Nat
  device : Option (List (Option Nat))
  num_devices : Nat
  deriving DecidableEq, Repr

/-- The freshly constructed `DefaultResources` singleton: every slot
empty, no device table, no instance constructed. -/
def initState : State :=
  { heap := [], host := none, pinned_async := none, managed := none,
    device := none, num_devices := 0 }

/-- The platform as the registry observes it: CUDA device count and
current device, the raw environment-variable strings, whether the
platform supports virtual-memory mapping (`DALI_USE_CUDA_VM_MAP`
compiled in and `cuvm::IsSupported()`), and whether the underlying
device-runtime calls made during pinned/device construction would
fail (throw from `CUDA_CALL` or an allocator constructor). -/
structure Env where
  deviceCount : Nat
  currentDevice : Nat
  envDeviceMemPool : Option String
  envPinnedMemPool : Option String
  envVMM : Option String
  daliUseCudaVmMap : Bool
  vmIsSupported : Bool
  deviceCreateThrows : Bool
  pinnedCreateThrows : Bool
  deriving DecidableEq, Repr

/-- Errors surfaced to the caller: `outOfRange d bound` is the
`std::out_of_range` thrown by `CheckDeviceIndex` (its message names the
offending index and the valid bound `num_devices`); `cudaError` is a
propagated device-runtime failure. -/
inductive Err where
  | outOfRange (device_id : Int) (bound : Nat) : Err
  | cudaError : Err
  deriving DecidableEq, Repr

/-! ## Configuration flags (`UseDeviceMemoryPool` / `UsePinnedMemoryPool` / `UseVMM`) -/

/-- C `atoi` on an explicit character list: skip leading whitespace,
read an optional sign, then consume leading decimal digits; no digits
yields 0. -/
def atoiDigits : List Char → Int → Int
  | [], acc => acc
  | c :: cs, acc =>
    if c.isDigit then atoiDigits cs (acc * 10 + ((c.toNat : Int) - ('0'.toNat : Int)))
    else acc

/-- Skip the leading whitespace `atoi` ignores. -/
def skipWs : List Char → List Char
  | [] => []
  | c :: cs => if c = ' ' ∨ c = '\t' ∨ c = '\n' ∨ c = '\r' then skipWs cs else c :: cs

/-- C `atoi` as used on the flag environment variables. -/
def atoi (s : String) : Int :=
  match skipWs s.data with
  | '-' :: cs => - atoiDigits cs 0
  | '+' :: cs => atoiDigits cs 0
  | cs => atoiDigits cs 0

/-- The initializer each flag runs once:
`const char *env = std::getenv(NAME); return !env || atoi(env);`.
Unset (`none`) is enabled; otherwise the flag holds iff `atoi` parses a
non-zero value. -/
def envFlag : Option String → Bool
  | none => true
  | some s => atoi s != 0

/-- The `static bool value` of one flag function: `none` before the
first call, `some v` once the initializer has run. -/
structure FlagCache where
  value : Option Bool
  deriving DecidableEq, Repr

/-- One call to a flag function (`UseDeviceMemoryPool`,
`UsePinnedMemoryPool`, `UseVMM`): on the first call the environment is
read and the result cached in the function-local static; every later
call returns the cached value without consulting the environment. -/
def readFlag (c : FlagCache) (env : Option String) : Bool × FlagCache :=
  match c.value with
  | some v => (v, c)
  | none => (envFlag env, ⟨some (envFlag env)⟩)

/-- Model of `UseDeviceMemoryPool()`, which reads `DALI_USE_DEVICE_MEM_POOL`. -/
def UseDeviceMemoryPool (c : FlagCache) (env : Env) : Bool × FlagCache :=
  readFlag c env.envDeviceMemPool

/-- Model of `UsePinnedMemoryPool()`, which reads `DALI_USE_PINNED_MEM_POOL`. -/
def UsePinnedMemoryPool (c : FlagCache) (env : Env) : Bool × FlagCache :=
  readFlag c env.envPinnedMemPool

/-- Model of `UseVMM()`, which reads `DALI_USE_VMM`. -/
def UseVMM (c : FlagCache) (env : Env) : Bool × FlagCache :=
  readFlag c env.envVMM

/-- The steady-state value of the device-pool flag for a given
environment (what `UseDeviceMemoryPool()` returns when
`DALI_USE_DEVICE_MEM_POOL` has this value at first read). -/
def useDeviceMemPool (env : Env) : Bool := envFlag env.envDeviceMemPool

/-- Steady-state value of the pinned-pool flag. -/
def usePinnedMemPool (env : Env) : Bool := envFlag env.envPinnedMemPool

/-- Steady-state value of the VMM preference flag. -/
def useVMM (env : Env) : Bool := envFlag env.envVMM

/-! ## Construction of the default resources

The heap records one entry per handle published or returned by the
registry; the sub-objects of a composite (the pool and its upstream) are
part of the instance's `Resource` tree, not separate heap entries.
The function-local `static` objects inside the `CreateDefault*`
functions are not modelled separately: along the registry's call paths
each create function runs at most once per populated slot, so a fresh
heap entry per successful call is observationally equivalent. -/

/-- Construct a fresh instance: returns its id and the grown heap. -/
def State.alloc (s : State) (r : Resource) : Nat × State :=
  (s.heap.length, { s with heap := s.heap ++ [⟨r, 0⟩] })

/-- The resource shape of instance `h`, if `h` is a valid id. -/
def resOf (s : State) (h : Nat) : Option Resource :=
  (s.heap.get? h).map (·.res)

/-- Model of `CreateDefaultHostResource`: a plain `malloc_memory_resource`,
no branching. -/
def CreateDefaultHostResource (s : State) : Nat × State :=
  s.alloc .malloc_memory_resource

/-- Model of `CreateDefaultManagedResource`: a plain
`managed_malloc_memory_resource`, no branching. -/
def CreateDefaultManagedResource (s : State) : Nat × State :=
  s.alloc .managed_malloc_memory_resource

/-- Model of `CreateDefaultDeviceResource`, called with the current device set to
`device_id` (the caller's `DeviceGuard`).  It first touches the device
runtime (`CUDARTLoader`, `CUDAEventPool`, `cudaGetDevice`), which
propagates any runtime failure; then:
* device-pool flag false → plain `cuda_malloc_memory_resource`;
* flag true, `DALI_USE_CUDA_VM_MAP` compiled in, `cuvm::IsSupported()`
  and VMM flag true → self-contained `async_pool_resource` over
  `cuda_vm_resource` (no separate upstream);
* flag true otherwise → `async_pool_resource` over a
  `coalescing_free_tree` pool drawing from a plain
  `cuda_malloc_memory_resource` upstream, bound together by
  `make_shared_composite_resource`. -/
def CreateDefaultDeviceResource (env : Env) (device_id : Nat) (s : State) :
    Except Err (Nat × State) :=
  if env.deviceCreateThrows then .error .cudaError
  else if !(useDeviceMemPool env) then
    .ok (s.alloc (.cuda_malloc_memory_resource device_id))
  else if env.daliUseCudaVmMap && env.vmIsSupported && useVMM env then
    .ok (s.alloc .async_pool_vm_resource)
  else
    .ok (s.alloc (.composite_resource
          (.async_pool_resource (.cuda_malloc_memory_resource device_id))
          (.cuda_malloc_memory_resource device_id)))

/-- Model of `CreateDefaultPinnedResource`:
* pinned-pool flag false → plain `pinned_malloc_memory_resource`;
* flag true → `async_pool_resource` over a `coalescing_free_tree` pool
  drawing from a plain `pinned_malloc_memory_resource` upstream, bound
  by `make_shared_composite_resource` (so the upstream outlives the
  pool).
A failing device-runtime call during construction propagates. -/
def CreateDefaultPinnedResource (env : Env) (s : State) :
    Except Err (Nat × State) :=
  if env.pinnedCreateThrows then .error .cudaError
  else if !(usePinnedMemPool env) then
    .ok (s.alloc .pinned_malloc_memory_resource)
  else
    .ok (s.alloc (.composite_resource
          (.async_pool_resource .pinned_malloc_memory_resource)
          .pinned_malloc_memory_resource))

/-! ## The registry operations -/

/-- Model of `DefaultResources::InitDeviceResArray`: on first use, query the
device count and publish the table (all slots empty) together with its
size; once sized the table is never resized. -/
def InitDeviceResArray (env : Env) (s : State) : State :=
  match s.device with
  | some _ => s
  | none =>
      { s with device := some (List.replicate env.deviceCount none),
               num_devices := env.deviceCount }

/-- Model of `DefaultResources::CheckDeviceIndex`: throw `std::out_of_range`
(naming the index and the valid bound `num_devices`) unless
`0 ≤ device_id < num_devices`. -/
def CheckDeviceIndex (s : State) (device_id : Int) : Except Err Unit :=
  if device_id < 0 ∨ (s.num_devices : Int) ≤ device_id then
    .error (.outOfRange device_id s.num_devices)
  else .ok ()

/-- Model of `ShareDefaultResourceImpl<memory_kind::host>`: double-checked
lazy construction of the host slot. -/
def ShareDefaultHostResource (s : State) : Nat × State :=
  match s.host with
  | some h => (h, s)
  | none =>
      let (h, s') := CreateDefaultHostResource s
      (h, { s' with host := some h })

/-- Model of `ShareDefaultResourceImpl<memory_kind::managed>`: double-checked
lazy construction of the managed slot. -/
def ShareDefaultManagedResource (s : State) : Nat × State :=
  match s.managed with
  | some h => (h, s)
  | none =>
      let (h, s') := CreateDefaultManagedResource s
      (h, { s' with managed := some h })

/-- Model of `ShareDefaultResourceImpl<memory_kind::pinned>`: double-checked lazy
construction of the pinned slot; a construction failure propagates and
the slot is not written. -/
def ShareDefaultPinnedResource (env : Env) (s : State) :
    Except Err Nat × State :=
  match s.pinned_async with
  | some h => (.ok h, s)
  | none =>
      match CreateDefaultPinnedResource env s with
      | .error e => (.error e, s)
      | .ok (h, s') => (.ok h, { s' with pinned_async := some h })

/-- Model of `ShareDefaultDeviceResourceImpl(device_id)`: a negative index is
replaced by the platform-reported current device; the device table is
sized on first use; the (substituted) index is range-checked against the
recorded size; then the slot is lazily populated under the lock, with a
`DeviceGuard` making `device_id` current during construction.  A
construction failure propagates and the slot is not written. -/
def ShareDefaultDeviceResourceImpl (env : Env) (s : State) (device_id : Int) :
    Except Err Nat × State :=
  let d : Int := if device_id < 0 then (env.currentDevice : Int) else device_id
  let s := InitDeviceResArray env s
  match CheckDeviceIndex s d with
  | .error e => (.error e, s)
  | .ok _ =>
      let arr := s.device.getD []
      match arr.getD d.toNat none with
      | some h => (.ok h, s)
      | none =>
          match CreateDefaultDeviceResource env d.toNat s with
          | .error e => (.error e, s)
          | .ok (h, s') =>
              (.ok h, { s' with device := some (arr.set d.toNat (some h)) })

/-- Model of `ShareDefaultResourceImpl<memory_kind::device>`, which forwards to the
per-device implementation with index `-1` (current device). -/
def ShareDefaultDeviceResource (env : Env) (s : State) :
    Except Err Nat × State :=
  ShareDefaultDeviceResourceImpl env s (-1)

/-- Model of `SetDefaultResource<memory_kind::host>`: replace the host slot
unconditionally under the lock. -/
def SetDefaultHostResource (s : State) (r : Option Nat) : State :=
  { s with host := r }

/-- Model of `SetDefaultResource<memory_kind::pinned>`: replace the pinned slot
unconditionally under the lock. -/
def SetDefaultPinnedResource (s : State) (r : Option Nat) : State :=
  { s with pinned_async := r }

/-- Model of `SetDefaultDeviceResource(device_id, resource)`: substitute the
current device for a negative index, size the table if needed,
range-check, then replace the slot unconditionally under the lock. -/
def SetDefaultDeviceResource (env : Env) (s : State) (device_id : Int)
    (r : Option Nat) : Except Err Unit × State :=
  let d : Int := if device_id < 0 then (env.currentDevice : Int) else device_id
  let s := InitDeviceResArray env s
  match CheckDeviceIndex s d with
  | .error e => (.error e, s)
  | .ok _ =>
      (.ok (), { s with device := some ((s.device.getD []).set d.toNat r) })

/-! ## Pool introspection and `ReleaseUnusedMemory` -/

/-- Modelled from the spec: which allocator stages expose the pool
capability (`pool_resource_base`, i.e. a `release_unused` operation).
The class-hierarchy facts behind `GetPoolInterface`'s `dynamic_cast`s
live in headers (`async_pool.h`, `composite_resource.h`) that are not
part of this translation unit; per the spec, the pool allocators are
the pool-capable stages and plain allocators are not. -/
def isPoolResource : Resource → Bool
  | .async_pool_vm_resource => true
  | .async_pool_resource _ => true
  | _ => false

/-- Model of the chain walk of `GetPoolInterface` on one resource tree.  Modelled from
the spec: "if the current stage exposes a pool capability, return it;
else if it exposes an upstream, advance; else report no poolable
stage" — a composite forwards to the resource it wraps, a pool's next
stage is its upstream, plain allocators end the chain. -/
def findPool : Resource → Option Resource
  | .async_pool_vm_resource => some .async_pool_vm_resource
  | .async_pool_resource u => some (.async_pool_resource u)
  | .composite_resource m _ => findPool m
  | _ => none

/-- Model of `GetPoolInterface(mr)`: a null pointer has no poolable stage. -/
def GetPoolInterface : Option Resource → Option Resource
  | none => none
  | some r => findPool r

/-- Whether the slot holds a handle whose chain has a poolable stage. -/
def slotHasPool (s : State) (slot : Option Nat) : Bool :=
  match slot with
  | none => false
  | some h => (GetPoolInterface (resOf s h)).isSome

/-- The device-table handles `ReleaseUnusedMemory` trims: slot `i` for
`0 ≤ i < num_devices` when populated and pool-capable (skipped entirely
when the table was never created). -/
def deviceTrimTargets (s : State) : List Nat :=
  match s.device with
  | none => []
  | some arr =>
      ((List.range s.num_devices).filterMap (fun i => arr.getD i none)).filter
        (fun h => (GetPoolInterface (resOf s h)).isSome)

/-- All handles `ReleaseUnusedMemory` trims: the pool-capable device
handles followed by the pinned handle when it is pool-capable. -/
def trimTargets (s : State) : List Nat :=
  deviceTrimTargets s ++
    (match s.pinned_async with
     | some h => if (GetPoolInterface (resOf s h)).isSome then [h] else []
     | none => [])

/-- Zero the cached bytes of the instances whose id (offset by `n`) is
among `targets`, leaving every other instance untouched. -/
def zeroCached (targets : List Nat) : List Inst → Nat → List Inst
  | [], _ => []
  | inst :: rest, n =>
      (if targets.contains n then { inst with cached := 0 } else inst) ::
        zeroCached targets rest (n + 1)

/-- Model of `ReleaseUnusedMemory()`: walk every constructed device handle and
the pinned handle; where the chain exposes a poolable stage, call its
`release_unused()` (drop all cached bytes); otherwise do nothing.
The operation is total — it never fails. -/
def ReleaseUnusedMemory (s : State) : State :=
  { s with heap := zeroCached (trimTargets s) s.heap 0 }

/-! ## Teardown-guarded release -/

/-- What happened to an underlying object when its owning slot was
released. -/
inductive Fate where
  | destructed : Fate
  | leaked : Fate
  deriving DecidableEq, Repr

/-- Model of `DefaultResources::Release(p)`: consult the teardown guard first
(`cudaGetLastError() == cudaErrorCudartUnloading`).  If the runtime is
unloading, `Abandon(p)` detaches the object from its wrapper without
running its destructor — a deliberate, permanent leak; otherwise
`p = {}` clears the slot normally and, the registry being the last
owner at teardown, the object's destructor runs.  Either way the slot
ends empty and no error is reported. -/
def Release (unloading : Bool) (p : Option Nat) :
    Option Nat × List (Nat × Fate) :=
  match p with
  | none => (none, [])
  | some h => if unloading then (none, [(h, .leaked)]) else (none, [(h, .destructed)])

/-- Model of `DefaultResources::ReleasePinned`. -/
def ReleasePinned (unloading : Bool) (s : State) :
    State × List (Nat × Fate) :=
  let (p, fates) := Release unloading s.pinned_async
  ({ s with pinned_async := p }, fates)

/-- Model of `DefaultResources::ReleaseManaged`. -/
def ReleaseManaged (unloading : Bool) (s : State) :
    State × List (Nat × Fate) :=
  let (p, fates) := Release unloading s.managed
  ({ s with managed := p }, fates)

/-- Model of `DefaultResources::ReleaseHost`. -/
def ReleaseHost (unloading : Bool) (s : State) :
    State × List (Nat × Fate) :=
  let (p, fates) := Release unloading s.host
  ({ s with host := p }, fates)

/-- Model of `DefaultResources::ReleaseDevice`: releases the `unique_ptr` device
array; abandoning it leaks every handle it holds, clearing it destroys
them. -/
def ReleaseDevice (unloading : Bool) (s : State) :
    State × List (Nat × Fate) :=
  match s.device with
  | none => ({ s with device := none }, [])
  | some arr =>
      let hs := arr.filterMap id
      ({ s with device := none },
       hs.map (fun h => (h, if unloading then .leaked else .destructed)))

/-- The device-table invariant: once the table exists, its length is the
recorded `num_devices` (the table never resizes). -/
def State.wf (s : State) : Bool :=
  match s.device with
  | none => true
  | some arr => arr.length == s.num_devices

/-- The device index actually used after the negative-index
substitution at the top of `ShareDefaultDeviceResourceImpl` /
`SetDefaultDeviceResource`. -/
def effIndex (env : Env) (d : Int) : Int :=
  if d < 0 then (env.currentDevice : Int) else d

/-- A sample platform: two devices, device 0 current, all flag
variables unset (pools and VMM enabled), mapping supported, no runtime
failures. -/
def envA : Env :=
  { deviceCount := 2, currentDevice := 0, envDeviceMemPool := none,
    envPinnedMemPool := none, envVMM := none, daliUseCudaVmMap := true,
    vmIsSupported := true, deviceCreateThrows := false,
    pinnedCreateThrows := false }

/-- Variant of `envA` with both pool variables explicitly set to `"0"` (pools
disabled). -/
def envB : Env :=
  { envA with envDeviceMemPool := some "0", envPinnedMemPool := some "0" }

/-- Variant of `envA` with every device-runtime call during construction
failing. -/
def envC : Env :=
  { envA with deviceCreateThrows := true, pinnedCreateThrows := true }

/-! ## Helper lemmas -/

theorem initDevice_heap (env : Env) (s : State) :
    (InitDeviceResArray env s).heap = s.heap := by
  unfold InitDeviceResArray
  cases s.device <;> rfl

theorem initDevice_host (env : Env) (s : State) :
    (InitDeviceResArray env s).host = s.host := by
  unfold InitDeviceResArray
  cases s.device <;> rfl

theorem initDevice_pinned (env : Env) (s : State) :
    (InitDeviceResArray env s).pinned_async = s.pinned_async := by
  unfold InitDeviceResArray
  cases s.device <;> rfl

theorem initDevice_managed (env : Env) (s : State) :
    (InitDeviceResArray env s).managed = s.managed := by
  unfold InitDeviceResArray
  cases s.device <;> rfl

theorem initDevice_isSome (env : Env) (s : State) :
    (InitDeviceResArray env s).device.isSome = true := by
  unfold InitDeviceResArray
  cases h : s.device <;> simp [h]

theorem initDevice_of_isSome (env : Env) (s : State) (h : s.device.isSome = true) :
    InitDeviceResArray env s = s := by
  unfold InitDeviceResArray
  cases hd : s.device with
  | none => rw [hd] at h; simp at h
  | some arr => rfl

theorem initDevice_wf (env : Env) (s : State) (h : s.wf = true) :
    (InitDeviceResArray env s).wf = true := by
  unfold InitDeviceResArray
  cases hd : s.device with
  | none => simp [State.wf]
  | some arr => unfold State.wf at h ⊢; rw [hd] at h; rw [hd]; exact h

theorem effIndex_nonneg (env : Env) (d : Int) : 0 ≤ effIndex env d := by
  unfold effIndex
  split
  · omega
  · omega

theorem effIndex_of_nonneg (env : Env) (d : Int) (h : 0 ≤ d) :
    effIndex env d = d := by
  unfold effIndex
  rw [if_neg (by omega)]

/-- Device shares depend on the index only through the negative-index
substitution. -/
theorem shareDevice_effIndex (env : Env) (s : State) (d : Int) :
    ShareDefaultDeviceResourceImpl env s d =
      ShareDefaultDeviceResourceImpl env s (effIndex env d) := by
  unfold ShareDefaultDeviceResourceImpl effIndex
  by_cases hc : d < 0 <;>
    simp [hc, show ¬ ((env.currentDevice : Int) < 0) by omega]

/-- Device overrides depend on the index only through the
negative-index substitution. -/
theorem setDevice_effIndex (env : Env) (s : State) (d : Int) (r : Option Nat) :
    SetDefaultDeviceResource env s d r =
      SetDefaultDeviceResource env s (effIndex env d) r := by
  unfold SetDefaultDeviceResource effIndex
  by_cases hc : d < 0 <;>
    simp [hc, show ¬ ((env.currentDevice : Int) < 0) by omega]

/-- A device share call with a nonnegative in-range index whose slot is
already populated returns that handle and leaves the state unchanged. -/
theorem shareDevice_populated (env : Env) (s : State) (d : Int) (h : Nat)
    (hd : s.device.isSome = true)
    (h0 : 0 ≤ d)
    (hn : d < (s.num_devices : Int))
    (hslot : (s.device.getD []).getD d.toNat none = some h) :
    ShareDefaultDeviceResourceImpl env s d = (.ok h, s) := by
  simp only [ShareDefaultDeviceResourceImpl]
  rw [if_neg (by omega : ¬ d < 0)]
  rw [initDevice_of_isSome env s hd]
  unfold CheckDeviceIndex
  rw [if_neg (by omega : ¬ (d < 0 ∨ (s.num_devices : Int) ≤ d))]
  rw [hslot]

theorem checkDevice_ok_iff (s : State) (d : Int) :
    CheckDeviceIndex s d = .ok () ↔ (0 ≤ d ∧ d < (s.num_devices : Int)) := by
  unfold CheckDeviceIndex
  by_cases hc : d < 0 ∨ (s.num_devices : Int) ≤ d
  · rw [if_pos hc]
    constructor
    · intro hcontra; cases hcontra
    · intro hrange; omega
  · rw [if_neg hc]
    constructor
    · intro _; omega
    · intro _; rfl

theorem checkDevice_error (s : State) (d : Int)
    (hd : (s.num_devices : Int) ≤ d ∨ d < 0) :
    CheckDeviceIndex s d = .error (.outOfRange d s.num_devices) := by
  unfold CheckDeviceIndex
  rw [if_pos (by omega)]

/-- A successful construction allocates exactly one fresh instance and
returns its id; nothing else in the state changes. -/
theorem createDevice_ok_inv (env : Env) (dev : Nat) (s : State) (h : Nat)
    (s' : State) (hEq : CreateDefaultDeviceResource env dev s = .ok (h, s')) :
    h = s.heap.length ∧ ∃ r, s' = { s with heap := s.heap ++ [⟨r, 0⟩] } := by
  unfold CreateDefaultDeviceResource State.alloc at hEq
  split at hEq
  · cases hEq
  · split at hEq
    · simp only [Except.ok.injEq, Prod.mk.injEq] at hEq
      obtain ⟨rfl, rfl⟩ := hEq
      exact ⟨rfl, _, rfl⟩
    · split at hEq
      · simp only [Except.ok.injEq, Prod.mk.injEq] at hEq
        obtain ⟨rfl, rfl⟩ := hEq
        exact ⟨rfl, _, rfl⟩
      · simp only [Except.ok.injEq, Prod.mk.injEq] at hEq
        obtain ⟨rfl, rfl⟩ := hEq
        exact ⟨rfl, _, rfl⟩

theorem createPinned_ok_inv (env : Env) (s : State) (h : Nat)
    (s' : State) (hEq : CreateDefaultPinnedResource env s = .ok (h, s')) :
    h = s.heap.length ∧ ∃ r, s' = { s with heap := s.heap ++ [⟨r, 0⟩] } := by
  unfold CreateDefaultPinnedResource State.alloc at hEq
  split at hEq
  · cases hEq
  · split at hEq
    · simp only [Except.ok.injEq, Prod.mk.injEq] at hEq
      obtain ⟨rfl, rfl⟩ := hEq
      exact ⟨rfl, _, rfl⟩
    · simp only [Except.ok.injEq, Prod.mk.injEq] at hEq
      obtain ⟨rfl, rfl⟩ := hEq
      exact ⟨rfl, _, rfl⟩

/-- Inversion of a successful device share with a nonnegative index:
the resulting state has a table, the index is in range, and the
returned handle sits in the slot. -/
theorem shareDevice_ok_inv (env : Env) (s : State) (d : Int) (h : Nat)
    (s₁ : State) (hwf : s.wf = true) (h0 : 0 ≤ d)
    (hEq : ShareDefaultDeviceResourceImpl env s d = (.ok h, s₁)) :
    s₁.wf = true ∧ s₁.device.isSome = true ∧ d < (s₁.num_devices : Int) ∧
      (s₁.device.getD []).getD d.toNat none = some h := by
  simp only [ShareDefaultDeviceResourceImpl] at hEq
  rw [if_neg (by omega : ¬ d < 0)] at hEq
  rcases hs' : InitDeviceResArray env s with ⟨heap', host', pa', m', dev', nd'⟩
  have hwf' : (InitDeviceResArray env s).wf = true := initDevice_wf env s hwf
  have hsome' : (InitDeviceResArray env s).device.isSome = true := initDevice_isSome env s
  rw [hs'] at hEq hwf' hsome'
  obtain ⟨arr, harr⟩ := Option.isSome_iff_exists.mp hsome'
  subst harr
  cases hchk : CheckDeviceIndex ⟨heap', host', pa', m', some arr, nd'⟩ d with
  | error e => rw [hchk] at hEq; simp at hEq
  | ok u =>
      cases u
      have hrange := (checkDevice_ok_iff _ d).mp hchk
      rw [hchk] at hEq
      simp only [Option.getD_some] at hEq
      cases hslot : arr.getD d.toNat none with
      | some h' =>
          rw [hslot] at hEq
          simp only [Prod.mk.injEq, Except.ok.injEq] at hEq
          obtain ⟨rfl, rfl⟩ := hEq
          exact ⟨hwf', rfl, hrange.2, hslot⟩
      | none =>
          rw [hslot] at hEq
          cases hcr : CreateDefaultDeviceResource env d.toNat
              ⟨heap', host', pa', m', some arr, nd'⟩ with
          | error e => rw [hcr] at hEq; simp at hEq
          | ok p =>
              obtain ⟨h', s''⟩ := p
              rw [hcr] at hEq
              simp only [Prod.mk.injEq, Except.ok.injEq] at hEq
              obtain ⟨rfl, rfl⟩ := hEq
              obtain ⟨-, r, rfl⟩ := createDevice_ok_inv env d.toNat _ h' s'' hcr
              have hlen : arr.length = nd' := by
                unfold State.wf at hwf'
                simpa using hwf'
              have hnd : d < (nd' : Int) := by simpa using hrange.2
              refine ⟨?_, rfl, hrange.2, ?_⟩
              · unfold State.wf
                simpa using hlen
              · simp only [Option.getD_some]
                rw [List.getD_eq_getElem?_getD,
                    List.getElem?_set_eq_of_lt _ (by omega : d.toNat < arr.length)]
                rfl

/-- Repeating a successful device share changes nothing and returns the
same handle. -/
theorem shareDevice_idem (env : Env) (s : State) (d : Int) (h : Nat)
    (s₁ : State) (hwf : s.wf = true)
    (hEq : ShareDefaultDeviceResourceImpl env s d = (.ok h, s₁)) :
    ShareDefaultDeviceResourceImpl env s₁ d = (.ok h, s₁) := by
  rw [shareDevice_effIndex] at hEq ⊢
  have h0 := effIndex_nonneg env d
  obtain ⟨hwf₁, hsome₁, hn₁, hslot₁⟩ :=
    shareDevice_ok_inv env s _ h s₁ hwf h0 hEq
  exact shareDevice_populated env s₁ _ h hsome₁ h0 hn₁ hslot₁

/-- Claim C1: for every memory kind (and every device index in the device
case), repeated `share_default` calls with no intervening override all
return the identical underlying allocator instance; a slot's allocator
is constructed at most once — a call that finds the slot populated
returns it with the registry unchanged, and after the call that
populates a slot every repetition returns the same handle and leaves
the whole state (in particular the instance heap) untouched. -/
theorem share_default_constructs_once (env : Env) (s : State)
    (hwf : s.wf = true) :
    (∀ h, s.host = some h → ShareDefaultHostResource s = (h, s)) ∧
    (∀ h, s.managed = some h → ShareDefaultManagedResource s = (h, s)) ∧
    (∀ h, s.pinned_async = some h →
        ShareDefaultPinnedResource env s = (.ok h, s)) ∧
    (∀ h s₁, ShareDefaultHostResource s = (h, s₁) →
        ShareDefaultHostResource s₁ = (h, s₁)) ∧
    (∀ h s₁, ShareDefaultManagedResource s = (h, s₁) →
        ShareDefaultManagedResource s₁ = (h, s₁)) ∧
    (∀ h s₁, ShareDefaultPinnedResource env s = (.ok h, s₁) →
        ShareDefaultPinnedResource env s₁ = (.ok h, s₁)) ∧
    (∀ (d : Int) (h : Nat) (s₁ : State),
        ShareDefaultDeviceResourceImpl env s d = (.ok h, s₁) →
        ShareDefaultDeviceResourceImpl env s₁ d = (.ok h, s₁)) := by
  refine ⟨?_, ?_, ?_, ?_, ?_, ?_, ?_⟩
  · intro h hh
    unfold ShareDefaultHostResource
    rw [hh]
  · intro h hh
    unfold ShareDefaultManagedResource
    rw [hh]
  · intro h hh
    unfold ShareDefaultPinnedResource
    rw [hh]
  · intro h s₁ hEq
    unfold ShareDefaultHostResource at hEq ⊢
    cases hh : s.host with
    | some h' =>
        rw [hh] at hEq
        simp only [Prod.mk.injEq] at hEq
        obtain ⟨rfl, rfl⟩ := hEq
        rw [hh]
    | none =>
        rw [hh] at hEq
        simp only [CreateDefaultHostResource, State.alloc, Prod.mk.injEq] at hEq
        obtain ⟨rfl, rfl⟩ := hEq
        rfl
  · intro h s₁ hEq
    unfold ShareDefaultManagedResource at hEq ⊢
    cases hh : s.managed with
    | some h' =>
        rw [hh] at hEq
        simp only [Prod.mk.injEq] at hEq
        obtain ⟨rfl, rfl⟩ := hEq
        rw [hh]
    | none =>
        rw [hh] at hEq
        simp only [CreateDefaultManagedResource, State.alloc, Prod.mk.injEq] at hEq
        obtain ⟨rfl, rfl⟩ := hEq
        rfl
  · intro h s₁ hEq
    unfold ShareDefaultPinnedResource at hEq ⊢
    cases hh : s.pinned_async with
    | some h' =>
        rw [hh] at hEq
        simp only [Prod.mk.injEq, Except.ok.injEq] at hEq
        obtain ⟨rfl, rfl⟩ := hEq
        rw [hh]
    | none =>
        rw [hh] at hEq
        cases hcr : CreateDefaultPinnedResource env s with
        | error e => rw [hcr] at hEq; simp at hEq
        | ok p =>
            obtain ⟨h', s'⟩ := p
            rw [hcr] at hEq
            simp only [Prod.mk.injEq, Except.ok.injEq] at hEq
            obtain ⟨rfl, rfl⟩ := hEq
            rfl
  · intro d h s₁ hEq
    exact shareDevice_idem env s d h s₁ hwf hEq

/-- Witness for C1: on the sample platform, starting from the fresh
registry, re-sharing after the first host share returns the same handle
and state. -/
theorem share_default_constructs_once_witness :
    initState.wf = true ∧
    ShareDefaultHostResource (ShareDefaultHostResource initState).2 =
      ((ShareDefaultHostResource initState).1,
       (ShareDefaultHostResource initState).2) :=
  ⟨by decide,
   (share_default_constructs_once envA initState (by decide)).2.2.2.1
     (ShareDefaultHostResource initState).1
     (ShareDefaultHostResource initState).2 rfl⟩

/-- Claim C10: a negative device index never fails on the index itself:
`ShareDefaultDeviceResourceImpl` and `SetDefaultDeviceResource` (and
hence `ShareDefaultDeviceResource`/`GetDefaultDeviceResource`, which
forward to them) first substitute the platform-reported current device
and then behave exactly as if that id had been passed, so the range
check only ever sees the substituted id. -/
theorem negative_index_uses_current_device (env : Env) (s : State) (d : Int)
    (r : Option Nat) (hd : d < 0) :
    ShareDefaultDeviceResourceImpl env s d =
      ShareDefaultDeviceResourceImpl env s (env.currentDevice : Int) ∧
    SetDefaultDeviceResource env s d r =
      SetDefaultDeviceResource env s (env.currentDevice : Int) r := by
  constructor
  · rw [shareDevice_effIndex]
    unfold effIndex
    rw [if_pos hd]
  · rw [setDevice_effIndex]
    unfold effIndex
    rw [if_pos hd]

/-- Witness for C10 at index `-1` on the sample platform. -/
theorem negative_index_uses_current_device_witness :
    (-1 : Int) < 0 ∧
    (ShareDefaultDeviceResourceImpl envA initState (-1) =
       ShareDefaultDeviceResourceImpl envA initState
         (envA.currentDevice : Int) ∧
     SetDefaultDeviceResource envA initState (-1) (some 5) =
       SetDefaultDeviceResource envA initState (envA.currentDevice : Int)
         (some 5)) :=
  ⟨by decide,
   negative_index_uses_current_device envA initState (-1) (some 5)
     (by decide)⟩

/-- Counterexample to claim C2: `envA` has `device_count = 2` and current
device 0; the index `-1` lies outside `[0, device_count)`, yet
`share_default(Device, -1)` does not fail — it succeeds and constructs
an allocator (the negative index is replaced by the current device
before the range check), refuting the claim as stated. -/
theorem share_out_of_range_counterexample :
    (ShareDefaultDeviceResourceImpl envA initState (-1)).1 = .ok 0 ∧
    (ShareDefaultDeviceResourceImpl envA initState (-1)).2.heap.length = 1 := by
  exact ⟨rfl, rfl⟩

/-- Claim C2, amended: for every *nonnegative* device index at or beyond
the device table's size (the device count recorded when the table was
first sized), `share_default(Device, d)` fails synchronously with a
range error that names the valid bound, constructs no allocator and
leaves every slot as it was — in particular, when this very call sizes
the table, every device slot of the resulting table is empty; the index
is never clamped into range.  (Negative indices are instead substituted
with the current device, see C10.) -/
theorem share_out_of_range_fails (env : Env) (s : State) (d : Int) :
    (s.device = none → (env.deviceCount : Int) ≤ d →
       ShareDefaultDeviceResourceImpl env s d =
         (.error (.outOfRange d env.deviceCount),
          { s with device := some (List.replicate env.deviceCount none),
                   num_devices := env.deviceCount })) ∧
    (∀ arr, s.device = some arr → (s.num_devices : Int) ≤ d →
       ShareDefaultDeviceResourceImpl env s d =
         (.error (.outOfRange d s.num_devices), s)) := by
  constructor
  · intro hnone hge
    simp only [ShareDefaultDeviceResourceImpl]
    rw [if_neg (by omega : ¬ d < 0)]
    have hinit : InitDeviceResArray env s =
        { s with device := some (List.replicate env.deviceCount none),
                 num_devices := env.deviceCount } := by
      unfold InitDeviceResArray
      rw [hnone]
    rw [hinit]
    rw [checkDevice_error _ d (Or.inl (by simpa using hge))]
  · intro arr harr hge
    simp only [ShareDefaultDeviceResourceImpl]
    rw [if_neg (by omega : ¬ d < 0)]
    rw [initDevice_of_isSome env s (by rw [harr]; rfl)]
    rw [checkDevice_error _ d (Or.inl hge)]

/-- Witness for C2 (amended): index 5 with two devices fails with the
range error naming the bound and the fresh registry stays
unconstructed. -/
theorem share_out_of_range_fails_witness :
    initState.device = none ∧ ((envA.deviceCount : Int) ≤ 5) ∧
    ShareDefaultDeviceResourceImpl envA initState 5 =
      (.error (.outOfRange 5 envA.deviceCount),
       { initState with
           device := some (List.replicate envA.deviceCount none),
           num_devices := envA.deviceCount }) :=
  ⟨rfl, by decide,
   (share_out_of_range_fails envA initState 5).1 rfl (by decide)⟩

/-- Inversion of a successful device override with a nonnegative index:
the heap is untouched, the invariant holds, and the slot now stores the
given handle. -/
theorem setDevice_ok_inv (env : Env) (s : State) (d : Int) (r : Option Nat)
    (u : Unit) (s₁ : State) (hwf : s.wf = true) (h0 : 0 ≤ d)
    (hEq : SetDefaultDeviceResource env s d r = (.ok u, s₁)) :
    s₁.heap = s.heap ∧ s₁.wf = true ∧ s₁.device.isSome = true ∧
      d < (s₁.num_devices : Int) ∧
      (s₁.device.getD []).getD d.toNat none = r := by
  simp only [SetDefaultDeviceResource] at hEq
  rw [if_neg (by omega : ¬ d < 0)] at hEq
  rcases hs' : InitDeviceResArray env s with ⟨heap', host', pa', m', dev', nd'⟩
  have hwf' : (InitDeviceResArray env s).wf = true := initDevice_wf env s hwf
  have hsome' : (InitDeviceResArray env s).device.isSome = true :=
    initDevice_isSome env s
  have hheap' : (InitDeviceResArray env s).heap = s.heap :=
    initDevice_heap env s
  rw [hs'] at hEq hwf' hsome' hheap'
  obtain ⟨arr, harr⟩ := Option.isSome_iff_exists.mp hsome'
  subst harr
  cases hchk : CheckDeviceIndex ⟨heap', host', pa', m', some arr, nd'⟩ d with
  | error e => rw [hchk] at hEq; simp at hEq
  | ok v =>
      cases v
      have hrange := (checkDevice_ok_iff _ d).mp hchk
      rw [hchk] at hEq
      simp only [Prod.mk.injEq] at hEq
      obtain ⟨-, rfl⟩ := hEq
      have hlen : arr.length = nd' := by
        unfold State.wf at hwf'
        simpa using hwf'
      have hnd : d < (nd' : Int) := by simpa using hrange.2
      refine ⟨by simpa using hheap', ?_, rfl, hrange.2, ?_⟩
      · unfold State.wf
        simpa using hlen
      · simp only [Option.getD_some]
        rw [List.getD_eq_getElem?_getD,
            List.getElem?_set_eq_of_lt _ (by omega : d.toNat < arr.length)]
        rfl

/-- Claim C3: after `set_default(K, H)`, a subsequent `share_default(K)`
returns `H` (and, the returned state being unchanged, keeps doing so
until the next override); the override never touches the instance heap,
so every handle obtained before it still refers to the same allocator
instance as before — only future lookups observe the new value. -/
theorem set_default_overrides (env : Env) (s : State) (H : Nat) :
    ((SetDefaultHostResource s (some H)).heap = s.heap ∧
     ShareDefaultHostResource (SetDefaultHostResource s (some H)) =
       (H, SetDefaultHostResource s (some H))) ∧
    ((SetDefaultPinnedResource s (some H)).heap = s.heap ∧
     ShareDefaultPinnedResource env (SetDefaultPinnedResource s (some H)) =
       (.ok H, SetDefaultPinnedResource s (some H))) ∧
    (∀ (d : Int) (u : Unit) (s₁ : State), s.wf = true →
       SetDefaultDeviceResource env s d (some H) = (.ok u, s₁) →
       s₁.heap = s.heap ∧
       ShareDefaultDeviceResourceImpl env s₁ d = (.ok H, s₁)) := by
  refine ⟨⟨rfl, rfl⟩, ⟨rfl, rfl⟩, ?_⟩
  intro d u s₁ hwf hEq
  rw [setDevice_effIndex] at hEq
  have h0 := effIndex_nonneg env d
  obtain ⟨hheap, hwf₁, hsome₁, hn₁, hslot₁⟩ :=
    setDevice_ok_inv env s _ (some H) u s₁ hwf h0 hEq
  refine ⟨hheap, ?_⟩
  rw [shareDevice_effIndex]
  exact shareDevice_populated env s₁ _ H hsome₁ h0 hn₁ hslot₁

/-- Witness for C3: override device slot 0 with handle 7 on the fresh
registry; sharing returns 7. -/
theorem set_default_overrides_witness :
    initState.wf = true ∧
    SetDefaultDeviceResource envA initState 0 (some 7) =
      (.ok (), (SetDefaultDeviceResource envA initState 0 (some 7)).2) ∧
    (SetDefaultDeviceResource envA initState 0 (some 7)).2.heap =
      initState.heap ∧
    ShareDefaultDeviceResourceImpl envA
      (SetDefaultDeviceResource envA initState 0 (some 7)).2 0 =
      (.ok 7, (SetDefaultDeviceResource envA initState 0 (some 7)).2) := by
  refine ⟨by decide, rfl, ?_⟩
  exact (set_default_overrides envA initState 7).2.2 0 ()
    (SetDefaultDeviceResource envA initState 0 (some 7)).2 (by decide) rfl

/-- When the device runtime does not fail, device construction
succeeds, allocating exactly one fresh instance. -/
theorem createDevice_ok_of_not_throws (env : Env) (dev : Nat) (s : State)
    (h : env.deviceCreateThrows = false) :
    ∃ r, CreateDefaultDeviceResource env dev s =
      .ok (s.heap.length, { s with heap := s.heap ++ [⟨r, 0⟩] }) := by
  unfold CreateDefaultDeviceResource State.alloc
  rw [if_neg (by simp [h])]
  split
  · exact ⟨_, rfl⟩
  · split
    · exact ⟨_, rfl⟩
    · exact ⟨_, rfl⟩

/-- When the device runtime does not fail, pinned construction
succeeds, allocating exactly one fresh instance. -/
theorem createPinned_ok_of_not_throws (env : Env) (s : State)
    (h : env.pinnedCreateThrows = false) :
    ∃ r, CreateDefaultPinnedResource env s =
      .ok (s.heap.length, { s with heap := s.heap ++ [⟨r, 0⟩] }) := by
  unfold CreateDefaultPinnedResource State.alloc
  rw [if_neg (by simp [h])]
  split
  · exact ⟨_, rfl⟩
  · exact ⟨_, rfl⟩

/-- Claim C9: when allocator construction during `share_default` fails
(an underlying device-runtime call throws), the error propagates to the
caller and the registry slot stays empty — the state is exactly what it
was before the construction attempt (for the device kind, with the
device table sized but every slot untouched), and no instance is added
to the heap — so a later call for the same slot attempts construction
again and succeeds once the runtime cooperates. -/
theorem construction_failure_leaves_slot_empty (env env' : Env) (s : State) :
    (env.pinnedCreateThrows = true → s.pinned_async = none →
       ShareDefaultPinnedResource env s = (.error .cudaError, s)) ∧
    (env'.pinnedCreateThrows = false → s.pinned_async = none →
       ∃ s₁, ShareDefaultPinnedResource env' s = (.ok s.heap.length, s₁) ∧
         s₁.pinned_async = some s.heap.length ∧
         s₁.heap.length = s.heap.length + 1) ∧
    (∀ d : Int, env.deviceCreateThrows = true → s.wf = true →
       ((InitDeviceResArray env s).device.getD []).getD
           (effIndex env d).toNat none = none →
       effIndex env d < ((InitDeviceResArray env s).num_devices : Int) →
       ShareDefaultDeviceResourceImpl env s d =
         (.error .cudaError, InitDeviceResArray env s) ∧
       (InitDeviceResArray env s).heap = s.heap) ∧
    (∀ d : Int, env'.deviceCreateThrows = false → s.wf = true →
       ((InitDeviceResArray env' s).device.getD []).getD
           (effIndex env' d).toNat none = none →
       effIndex env' d < ((InitDeviceResArray env' s).num_devices : Int) →
       ∃ s₁, ShareDefaultDeviceResourceImpl env' s d = (.ok s.heap.length, s₁) ∧
         s₁.heap.length = s.heap.length + 1) := by
  refine ⟨?_, ?_, ?_, ?_⟩
  · intro hthrow hslot
    unfold ShareDefaultPinnedResource
    rw [hslot]
    unfold CreateDefaultPinnedResource
    rw [if_pos (by simp [hthrow])]
  · intro hok hslot
    unfold ShareDefaultPinnedResource
    rw [hslot]
    obtain ⟨r, hcr⟩ := createPinned_ok_of_not_throws env' s hok
    rw [hcr]
    exact ⟨_, rfl, rfl, by simp⟩
  · intro d hthrow hwf hslot hn
    have h0 := effIndex_nonneg env d
    rw [shareDevice_effIndex]
    constructor
    · simp only [ShareDefaultDeviceResourceImpl]
      rw [if_neg (by omega : ¬ effIndex env d < 0)]
      rw [(checkDevice_ok_iff (InitDeviceResArray env s)
            (effIndex env d)).mpr ⟨h0, hn⟩]
      rw [hslot]
      unfold CreateDefaultDeviceResource
      rw [if_pos (by simp [hthrow])]
    · exact initDevice_heap env s
  · intro d hok hwf hslot hn
    have h0 := effIndex_nonneg env' d
    rw [shareDevice_effIndex]
    simp only [ShareDefaultDeviceResourceImpl]
    rw [if_neg (by omega : ¬ effIndex env' d < 0)]
    rw [(checkDevice_ok_iff (InitDeviceResArray env' s)
          (effIndex env' d)).mpr ⟨h0, hn⟩]
    rw [hslot]
    obtain ⟨r, hcr⟩ :=
      createDevice_ok_of_not_throws env' (effIndex env' d).toNat
        (InitDeviceResArray env' s) hok
    rw [hcr]
    rw [initDevice_heap env' s]
    exact ⟨_, rfl, by simp [initDevice_heap env' s]⟩

/-- Witness for C9: on the failing platform `envC` the pinned share
fails leaving the fresh registry unchanged; retried on `envA`, it
succeeds and constructs the allocator. -/
theorem construction_failure_leaves_slot_empty_witness :
    envC.pinnedCreateThrows = true ∧ initState.pinned_async = none ∧
    envA.pinnedCreateThrows = false ∧
    ShareDefaultPinnedResource envC initState =
      (.error .cudaError, initState) ∧
    (∃ s₁, ShareDefaultPinnedResource envA initState =
        (.ok initState.heap.length, s₁) ∧
      s₁.pinned_async = some initState.heap.length ∧
      s₁.heap.length = initState.heap.length + 1) :=
  ⟨rfl, rfl, rfl,
   (construction_failure_leaves_slot_empty envC envA initState).1 rfl rfl,
   (construction_failure_leaves_slot_empty envC envA initState).2.1 rfl rfl⟩

theorem getD_replicate_none (n i : Nat) :
    (List.replicate n (none : Option Nat)).getD i none = none := by
  rw [List.getD_eq_getElem?_getD, List.getElem?_replicate]
  split
  · rfl
  · rfl

/-- Claim C5: the default device allocator's strategy is selected by this
exact case analysis — device-pool flag false: a plain device allocator,
regardless of the VMM flag or mapping support; flag true with mapping
compiled in, supported and preferred: the self-contained growing
mapped-pool allocator with no separate upstream; flag true otherwise:
a coalescing-tree pool over a plain-device upstream composed via
`make_shared_composite_resource`. -/
theorem device_strategy_selection (env : Env) (d : Nat)
    (hd : d < env.deviceCount) (hok : env.deviceCreateThrows = false) :
    ∃ s₁, ShareDefaultDeviceResourceImpl env initState (d : Int) =
        (.ok 0, s₁) ∧
      resOf s₁ 0 = some
        (if useDeviceMemPool env = false then
           .cuda_malloc_memory_resource d
         else if env.daliUseCudaVmMap && env.vmIsSupported && useVMM env then
           .async_pool_vm_resource
         else
           .composite_resource
             (.async_pool_resource (.cuda_malloc_memory_resource d))
             (.cuda_malloc_memory_resource d)) := by
  simp only [ShareDefaultDeviceResourceImpl]
  rw [if_neg (by omega : ¬ (d : Int) < 0)]
  have hinit : InitDeviceResArray env initState =
      { initState with device := some (List.replicate env.deviceCount none),
                       num_devices := env.deviceCount } := rfl
  rw [hinit]
  rw [(checkDevice_ok_iff _ (d : Int)).mpr
        ⟨by omega, by simpa using (by exact_mod_cast hd : (d : Int) < (env.deviceCount : Int))⟩]
  simp only [Option.getD_some, Int.toNat_ofNat]
  rw [getD_replicate_none]
  unfold CreateDefaultDeviceResource State.alloc
  rw [if_neg (by simp [hok])]
  cases hpool : useDeviceMemPool env with
  | false =>
      rw [if_pos (by simp [hpool])]
      exact ⟨_, rfl, by simp [resOf, initState]⟩
  | true =>
      rw [if_neg (by simp [hpool])]
      cases hvm : env.daliUseCudaVmMap && env.vmIsSupported && useVMM env with
      | true =>
          rw [if_pos (by simp [hvm])]
          exact ⟨_, rfl, by simp [resOf, initState, hvm]⟩
      | false =>
          rw [if_neg (by simp [hvm])]
          exact ⟨_, rfl, by simp [resOf, initState, hvm]⟩

/-- Witness for C5: on the sample platform (pool and VMM enabled,
mapping supported) device 0's default allocator is the self-contained
mapped pool. -/
theorem device_strategy_selection_witness :
    0 < envA.deviceCount ∧ envA.deviceCreateThrows = false ∧
    ∃ s₁, ShareDefaultDeviceResourceImpl envA initState ((0 : Nat) : Int) =
        (.ok 0, s₁) ∧
      resOf s₁ 0 = some
        (if useDeviceMemPool envA = false then
           .cuda_malloc_memory_resource 0
         else if envA.daliUseCudaVmMap && envA.vmIsSupported && useVMM envA then
           .async_pool_vm_resource
         else
           .composite_resource
             (.async_pool_resource (.cuda_malloc_memory_resource 0))
             (.cuda_malloc_memory_resource 0)) :=
  ⟨by decide, rfl, device_strategy_selection envA 0 (by decide) rfl⟩

/-- Claim C6: the default pinned allocator's strategy is selected by the
pinned-pool flag alone — flag false: a plain pinned allocator; flag
true: a coalescing-tree pool over a plain-pinned upstream composed via
`make_shared_composite_resource`, so the upstream outlives the pool. -/
theorem pinned_strategy_selection (env : Env)
    (hok : env.pinnedCreateThrows = false) :
    ∃ s₁, ShareDefaultPinnedResource env initState = (.ok 0, s₁) ∧
      resOf s₁ 0 = some
        (if usePinnedMemPool env = false then
           .pinned_malloc_memory_resource
         else
           .composite_resource
             (.async_pool_resource .pinned_malloc_memory_resource)
             .pinned_malloc_memory_resource) := by
  have hslot : initState.pinned_async = none := rfl
  unfold ShareDefaultPinnedResource
  simp only [hslot]
  unfold CreateDefaultPinnedResource State.alloc
  rw [if_neg (by simp [hok])]
  cases hpool : usePinnedMemPool env with
  | false =>
      rw [if_pos (by simp [hpool])]
      exact ⟨_, rfl, by simp [resOf, initState]⟩
  | true =>
      rw [if_neg (by simp [hpool])]
      exact ⟨_, rfl, by simp [resOf, initState]⟩

/-- Witness for C6: on the sample platform (pinned pool enabled) the
default pinned allocator is the composite pool-over-plain-pinned. -/
theorem pinned_strategy_selection_witness :
    envA.pinnedCreateThrows = false ∧
    ∃ s₁, ShareDefaultPinnedResource envA initState = (.ok 0, s₁) ∧
      resOf s₁ 0 = some
        (if usePinnedMemPool envA = false then
           .pinned_malloc_memory_resource
         else
           .composite_resource
             (.async_pool_resource .pinned_malloc_memory_resource)
             .pinned_malloc_memory_resource) :=
  ⟨rfl, pinned_strategy_selection envA rfl⟩

/-- Claim C7: each of the three configuration flags is read from the
environment at most once per process — the first call runs the
initializer and caches the value in the function-local static, and
every later call returns the cached value without consulting the
(possibly changed) environment — and the flag is enabled unless the
variable is explicitly set to (a string parsing to) zero: unset means
enabled, and any value `atoi` parses as non-zero means enabled. -/
theorem config_flags_read_once_default_enabled :
    (∀ env : Env,
       UseDeviceMemoryPool ⟨none⟩ env =
         (envFlag env.envDeviceMemPool,
          ⟨some (envFlag env.envDeviceMemPool)⟩) ∧
       UsePinnedMemoryPool ⟨none⟩ env =
         (envFlag env.envPinnedMemPool,
          ⟨some (envFlag env.envPinnedMemPool)⟩) ∧
       UseVMM ⟨none⟩ env =
         (envFlag env.envVMM, ⟨some (envFlag env.envVMM)⟩)) ∧
    (∀ (v : Bool) (env env' : Env),
       UseDeviceMemoryPool ⟨some v⟩ env = (v, ⟨some v⟩) ∧
       UsePinnedMemoryPool ⟨some v⟩ env' = (v, ⟨some v⟩) ∧
       UseVMM ⟨some v⟩ env = (v, ⟨some v⟩)) ∧
    envFlag none = true ∧
    (∀ str : String, atoi str ≠ 0 → envFlag (some str) = true) ∧
    (∀ str : String, atoi str = 0 → envFlag (some str) = false) := by
  refine ⟨fun env => ⟨rfl, rfl, rfl⟩, fun v env env' => ⟨rfl, rfl, rfl⟩,
          rfl, ?_, ?_⟩
  · intro str h
    unfold envFlag
    simpa [bne_iff_ne] using h
  · intro str h
    unfold envFlag
    simp [h]

/-- Witness for C7: `"1"` parses non-zero hence enabled, `"0"` parses
zero hence disabled. -/
theorem config_flags_read_once_default_enabled_witness :
    (atoi "1" ≠ 0 ∧ envFlag (some "1") = true) ∧
    (atoi "0" = 0 ∧ envFlag (some "0") = false) :=
  ⟨⟨by decide,
    config_flags_read_once_default_enabled.2.2.2.1 "1" (by decide)⟩,
   ⟨by decide,
    config_flags_read_once_default_enabled.2.2.2.2 "0" (by decide)⟩⟩

/-- Claim C8: every release performed by the registry consults the
teardown guard first.  If the runtime reports unloading, the underlying
object is detached from its ownership wrapper and its destructor never
runs — every fate is `leaked`, a deliberate permanent leak; otherwise
the slot is cleared normally and the object's destructor runs (the
registry being the last owner at teardown).  In both cases the slot
ends empty; the functions are total, so the unloading case is never
reported as an error. -/
theorem release_respects_teardown_guard (unloading : Bool) (p : Option Nat)
    (s : State) :
    ((Release unloading p).1 = none) ∧
    (unloading = true → ∀ x ∈ (Release unloading p).2, x.2 = Fate.leaked) ∧
    (unloading = false → ∀ h, p = some h →
       (Release unloading p).2 = [(h, .destructed)]) ∧
    ((ReleasePinned unloading s).1.pinned_async = none) ∧
    ((ReleaseHost unloading s).1.host = none) ∧
    ((ReleaseManaged unloading s).1.managed = none) ∧
    ((ReleaseDevice unloading s).1.device = none) ∧
    (unloading = true → ∀ x ∈ (ReleaseDevice unloading s).2,
       x.2 = Fate.leaked) ∧
    (unloading = false → ∀ x ∈ (ReleaseDevice unloading s).2,
       x.2 = Fate.destructed) := by
  refine ⟨?_, ?_, ?_, ?_, ?_, ?_, ?_, ?_, ?_⟩
  · cases p with
    | none => rfl
    | some h => cases unloading <;> rfl
  · intro hu x hx
    subst hu
    cases p with
    | none => simp [Release] at hx
    | some h =>
        simp only [Release, if_pos, List.mem_singleton] at hx
        rw [hx]
  · intro hu h hp
    subst hu hp
    rfl
  · unfold ReleasePinned
    cases s.pinned_async with
    | none => rfl
    | some h => cases unloading <;> rfl
  · unfold ReleaseHost
    cases s.host with
    | none => rfl
    | some h => cases unloading <;> rfl
  · unfold ReleaseManaged
    cases s.managed with
    | none => rfl
    | some h => cases unloading <;> rfl
  · unfold ReleaseDevice
    cases s.device <;> rfl
  · intro hu x hx
    subst hu
    unfold ReleaseDevice at hx
    cases hdev : s.device with
    | none => rw [hdev] at hx; simp at hx
    | some arr =>
        rw [hdev] at hx
        simp only [List.mem_map] at hx
        obtain ⟨h, -, rfl⟩ := hx
        rfl
  · intro hu x hx
    subst hu
    unfold ReleaseDevice at hx
    cases hdev : s.device with
    | none => rw [hdev] at hx; simp at hx
    | some arr =>
        rw [hdev] at hx
        simp only [List.mem_map] at hx
        obtain ⟨h, -, rfl⟩ := hx
        rfl

/-- Witness for C8: releasing a populated pinned slot while the runtime
unloads leaks the handle; releasing it normally destroys it. -/
theorem release_respects_teardown_guard_witness :
    (Release true (some 3)).1 = none ∧
    (3, Fate.leaked).2 = Fate.leaked ∧
    (Release false (some 3)).2 = [(3, .destructed)] :=
  ⟨(release_respects_teardown_guard true (some 3) initState).1,
   (release_respects_teardown_guard true (some 3) initState).2.1 rfl
     (3, Fate.leaked) (by decide),
   (release_respects_teardown_guard false (some 3) initState).2.2.1 rfl
     3 rfl⟩

theorem zeroCached_nil (l : List Inst) (n : Nat) :
    zeroCached [] l n = l := by
  induction l generalizing n with
  | nil => rfl
  | cons a rest ih => simp [zeroCached, ih]

theorem zeroCached_get? (t : List Nat) (l : List Inst) (n i : Nat) :
    (zeroCached t l n).get? i =
      (l.get? i).map (fun inst =>
        if t.contains (n + i) then { inst with cached := 0 } else inst) := by
  induction l generalizing n i with
  | nil => rfl
  | cons a rest ih =>
      cases i with
      | zero => simp [zeroCached]
      | succ i =>
          simp only [zeroCached, List.get?_cons_succ, ih (n + 1) i]
          rw [show n + 1 + i = n + (i + 1) by omega]

theorem zeroCached_res (t : List Nat) (l : List Inst) (n i : Nat) :
    ((zeroCached t l n).get? i).map (·.res) = (l.get? i).map (·.res) := by
  rw [zeroCached_get?]
  cases l.get? i with
  | none => rfl
  | some inst =>
      simp only [Option.map_some']
      split
      · rfl
      · rfl

theorem zeroCached_idem (t : List Nat) (l : List Inst) (n : Nat) :
    zeroCached t (zeroCached t l n) n = zeroCached t l n := by
  have hstep : ∀ (b : Inst) (m : Nat) (l : List Inst),
      zeroCached t (b :: l) m =
        (if t.contains m then { b with cached := 0 } else b) ::
          zeroCached t l (m + 1) := fun b m l => rfl
  induction l generalizing n with
  | nil => rfl
  | cons a rest ih =>
      rw [hstep]
      by_cases hc : t.contains n
      · rw [if_pos hc, hstep, if_pos hc, ih]
      · rw [if_neg hc, hstep, if_neg hc, ih]

theorem resOf_releaseUnused (s : State) (h : Nat) :
    resOf (ReleaseUnusedMemory s) h = resOf s h := by
  unfold resOf ReleaseUnusedMemory
  exact zeroCached_res _ _ 0 h

theorem trimTargets_releaseUnused (s : State) :
    trimTargets (ReleaseUnusedMemory s) = trimTargets s := by
  have hres : ∀ h, resOf (ReleaseUnusedMemory s) h = resOf s h :=
    resOf_releaseUnused s
  have hdev : (ReleaseUnusedMemory s).device = s.device := rfl
  have hnum : (ReleaseUnusedMemory s).num_devices = s.num_devices := rfl
  have hpin : (ReleaseUnusedMemory s).pinned_async = s.pinned_async := rfl
  unfold trimTargets deviceTrimTargets
  rw [hdev, hnum, hpin]
  simp only [hres]

/-- Claim C4: `ReleaseUnusedMemory` never fails (it is a total function
on registry states) and is idempotent in every state; it trims (zeroes
the cached bytes of) exactly the constructed device handles and pinned
handle whose chain exposes a pool-capable stage, touches no other
instance and no slot, preserves every instance's identity and resource
shape, and does nothing at all when there is nothing to trim. -/
theorem release_unused_memory_idempotent (s : State) :
    ReleaseUnusedMemory (ReleaseUnusedMemory s) = ReleaseUnusedMemory s ∧
    (ReleaseUnusedMemory s).host = s.host ∧
    (ReleaseUnusedMemory s).pinned_async = s.pinned_async ∧
    (ReleaseUnusedMemory s).managed = s.managed ∧
    (ReleaseUnusedMemory s).device = s.device ∧
    (ReleaseUnusedMemory s).num_devices = s.num_devices ∧
    (∀ h, resOf (ReleaseUnusedMemory s) h = resOf s h) ∧
    (∀ h, h ∈ trimTargets s →
       (ReleaseUnusedMemory s).heap.get? h =
         (s.heap.get? h).map (fun i => { i with cached := 0 })) ∧
    (∀ h, h ∉ trimTargets s →
       (ReleaseUnusedMemory s).heap.get? h = s.heap.get? h) ∧
    (trimTargets s = [] → ReleaseUnusedMemory s = s) := by
  refine ⟨?_, rfl, rfl, rfl, rfl, rfl, resOf_releaseUnused s, ?_, ?_, ?_⟩
  · have h1 : ReleaseUnusedMemory (ReleaseUnusedMemory s) =
        { s with heap := zeroCached (trimTargets (ReleaseUnusedMemory s))
                   (zeroCached (trimTargets s) s.heap 0) 0 } := rfl
    rw [h1, trimTargets_releaseUnused, zeroCached_idem]
    rfl
  · intro h hmem
    have hc : (trimTargets s).contains h = true := List.elem_iff.mpr hmem
    show (zeroCached (trimTargets s) s.heap 0).get? h = _
    rw [zeroCached_get?]
    simp only [Nat.zero_add, hc, if_true]
  · intro h hmem
    have hc : ¬ (trimTargets s).contains h = true := fun hcontra =>
      hmem (List.elem_iff.mp hcontra)
    show (zeroCached (trimTargets s) s.heap 0).get? h = _
    rw [zeroCached_get?]
    simp only [Nat.zero_add, hc, if_false]
    cases s.heap.get? h <;> rfl
  · intro hempty
    show { s with heap := zeroCached (trimTargets s) s.heap 0 } = s
    rw [hempty, zeroCached_nil]

/-- Witness for C4: after the pinned pool is installed on the sample
platform, its handle is a trim target and `ReleaseUnusedMemory` zeroes
its cached bytes. -/
theorem release_unused_memory_idempotent_witness :
    0 ∈ trimTargets (ShareDefaultPinnedResource envA initState).2 ∧
    (ReleaseUnusedMemory
        (ShareDefaultPinnedResource envA initState).2).heap.get? 0 =
      ((ShareDefaultPinnedResource envA initState).2.heap.get? 0).map
        (fun i => { i with cached := 0 }) :=
  ⟨by decide,
   (release_unused_memory_idempotent
      (ShareDefaultPinnedResource envA initState).2).2.2.2.2.2.2.2.1 0
     (by decide)⟩

end DaliMM
